import Mathlib

/-!
Shallow embedding of the chat-server core in `src/server.js` (the current,
directed-delivery variant): the persistent message log backed by the
`messageSchema` Mongoose model, the in-memory `connectedUsers` registry
(a JS `Map` keyed by `userId`), the Socket.IO event handlers (`signin`,
`send_message`, `request_chat_history`, `get_users_list`, `typing`,
`stop_typing`, `disconnect`) and the HTTP query endpoints (history,
conversations, mark-read).

Modelling conventions:
- JS `undefined` for an absent field is `Option.none`; the JS falsy
  coalescing `x || d` on strings is `strOr` (both `undefined` and the
  empty string select the default), on numbers `natOr` (0 is falsy).
- Timestamps (`Date` values / ISO strings) are `Nat` milliseconds; the
  ambient current time is passed as an explicit `now` parameter.
- Socket handles (`socket.id`) are `Nat`.
- The MongoDB unique index on `messageId` and Mongoose `required`
  validation are modelled inside `saveMessage`; an I/O-level write
  failure of the durable store is modelled by the `dbFail` oracle flag.
- Emitted Socket.IO events are collected in an output list `Event`;
  `socket.emit` events carry the destination socket id, `io.emit`
  broadcasts carry none.
-/

namespace ChatServer

/-- JS string coalescing `s || dflt`: `undefined` and `""` are falsy. -/
def strOr (o : Option String) (dflt : String) : String :=
  match o with
  | some s => if s = "" then dflt else s
  | none => dflt

/-- JS numeric coalescing `n || dflt`: `undefined` and `0` are falsy. -/
def natOr (o : Option Nat) (dflt : Nat) : Nat :=
  match o with
  | some n => if n = 0 then dflt else n
  | none => dflt

/-- JS template-literal rendering of a possibly-`undefined` string. -/
def tmplStr (o : Option String) : String := o.getD "undefined"

/-- A persisted message document (the `messageSchema` Mongoose model in
`src/server.js`): fields `sender`, `senderName`, `receiverId`, `content`,
`messageId` (unique), `timestamp`, optional `roomId`, `read`. -/
structure Message where
  sender : String
  senderName : String
  receiverId : String
  content : String
  messageId : String
  timestamp : Nat
  roomId : Option String
  read : Bool
deriving Repr, DecidableEq, Inhabited

/-- One entry of the `connectedUsers` map: the value stored by the
`signin` handler. -/
structure ConnectionEntry where
  userId : String
  socketId : Nat
  name : String
  email : String
  status : String
  lastSeen : Nat
deriving Repr, DecidableEq, Inhabited

/-- A user record as projected into `users_list` / `users_list_updated`
payloads. `lastSeen` is `none` for the `get_users_list` projection, which
omits the field. -/
structure UserView where
  userId : String
  name : String
  email : String
  status : String
  lastSeen : Option Nat
deriving Repr, DecidableEq

/-- The payload of a `receive_message` event, exactly the object literal
built in the `send_message` handler (note it echoes the raw inbound
`messageId`, not the possibly-generated one). -/
structure MessagePayload where
  sender : Option String
  senderName : String
  receiverId : Option String
  content : String
  messageId : Option String
  timestamp : Nat
  roomId : Option String
deriving Repr, DecidableEq

/-- Outbound Socket.IO events emitted by the handlers. `sock` arguments
are the destination socket of a `socket.emit` / `io.to(...)`; broadcast
events (`io.emit`) carry no destination. -/
inductive Event where
  | signinSuccess (sock : Nat) (userId : String)
  | usersListUpdated (users : List UserView) (count : Nat) (time : Nat)
  | usersList (sock : Nat) (users : List UserView) (count : Nat)
  | receiveMessage (sock : Nat) (payload : MessagePayload)
  | receiverOffline (sock : Nat) (receiverId : Option String)
  | messageSent (sock : Nat) (messageId : Option String) (time : Nat)
  | messageError (sock : Nat) (messageId : Option String)
  | userOffline (userId : String) (userName : Option String) (time : Nat)
  | userTyping (sock : Nat) (userId : Option String) (isTyping : Bool) (time : Nat)
  | chatHistory (sock : Nat) (messages : List Message) (count : Nat) (otherUserId : Option String)
  | chatHistoryError (sock : Nat)
deriving Repr, DecidableEq

/-! ### The `connectedUsers` registry (JS `Map` keyed by `userId`) -/

/-- `connectedUsers.get(userId)`. -/
def mapGet (reg : List ConnectionEntry) (userId : String) : Option ConnectionEntry :=
  reg.find? (fun e => e.userId = userId)

/-- `connectedUsers.set(userId, entry)`: replaces in place when the key is
present (JS `Map.set` keeps the original insertion position), appends
otherwise. -/
def mapSet (reg : List ConnectionEntry) (entry : ConnectionEntry) : List ConnectionEntry :=
  if reg.any (fun e => e.userId = entry.userId) then
    reg.map (fun e => if e.userId = entry.userId then entry else e)
  else
    reg ++ [entry]

/-- `connectedUsers.delete(userId)`. -/
def mapDelete (reg : List ConnectionEntry) (userId : String) : List ConnectionEntry :=
  reg.filter (fun e => e.userId ≠ userId)

/-! ### The message log and `Message.save()` -/

/-- Why a `save()` call rejects: Mongoose client-side `required`
validation, an I/O-level write error against the durable store, or the
server-side unique-index collision on `messageId` (MongoDB E11000). -/
inductive SaveError where
  | validationError
  | persistenceFailure
  | duplicateMessageId
deriving Repr, DecidableEq

/-- Mongoose `required: true` on a `String` path: the path must be
present and non-empty (`""` fails `required` for strings). -/
def reqOk (o : Option String) : Bool :=
  match o with
  | some s => s ≠ ""
  | none => false

/-- `new Message({...}).save()` against the log: `required` validation of
`sender`, `receiverId` and `content` (the `senderName` and `messageId`
paths are always populated by the handler's `||` defaults), then the
durable write, which can fail at the I/O level (`dbFail`) or be rejected
by the unique index on `messageId`; on success the document is appended. -/
def saveMessage (dbFail : Bool) (log : List Message)
    (sender receiverId : Option String) (doc : Message) :
    Except SaveError (List Message) :=
  if ¬ (reqOk sender ∧ reqOk receiverId ∧ doc.content ≠ "") then
    .error .validationError
  else if dbFail then
    .error .persistenceFailure
  else if log.any (fun m => m.messageId = doc.messageId) then
    .error .duplicateMessageId
  else
    .ok (log ++ [doc])

/-! ### Users-list projections -/

/-- The projection inside `broadcastUsersList`: every entry is rendered
with the literal `status: 'online'` and `lastSeen: new Date()`. -/
def usersListBroadcastView (reg : List ConnectionEntry) (now : Nat) : List UserView :=
  reg.map (fun u =>
    { userId := u.userId, name := u.name, email := u.email,
      status := "online", lastSeen := some now })

/-- `broadcastUsersList()`: `io.emit('users_list_updated', ...)`. -/
def broadcastUsersList (reg : List ConnectionEntry) (now : Nat) : Event :=
  let usersList := usersListBroadcastView reg now
  .usersListUpdated usersList usersList.length now

/-- The projection inside the `get_users_list` handler: literal
`status: 'online'`, no `lastSeen` field. -/
def usersListSnapshotView (reg : List ConnectionEntry) : List UserView :=
  reg.map (fun u =>
    { userId := u.userId, name := u.name, email := u.email,
      status := "online", lastSeen := none })

/-! ### Server state and inbound event data -/

/-- Mutable server state: the `connectedUsers` map, the persisted message
collection, and each socket's `socket.userId` assignment. -/
structure ServerState where
  reg : List ConnectionEntry
  log : List Message
  socketUser : List (Nat × String)
deriving Repr, DecidableEq

def initialState : ServerState := ⟨[], [], []⟩

/-- `socket.userId` for a given socket, if ever assigned. -/
def sockUser (st : ServerState) (sock : Nat) : Option String :=
  (st.socketUser.find? (fun p => p.1 = sock)).map (·.2)

/-- Assignment `socket.userId = userId`. -/
def setSockUser (su : List (Nat × String)) (sock : Nat) (userId : String) :
    List (Nat × String) :=
  if su.any (fun p => p.1 = sock) then
    su.map (fun p => if p.1 = sock then (sock, userId) else p)
  else
    su ++ [(sock, userId)]

/-- Payload of the `signin` event (object form `{userId, name, email}`;
the raw-string legacy form `socket.on('signin', userId)` corresponds to
`name = none, email = none`). -/
structure SigninData where
  userId : String
  name : Option String
  email : Option String
deriving Repr, DecidableEq

/-- Payload of the `send_message` event; every field can be absent. -/
structure SendMessageData where
  sender : Option String
  senderName : Option String
  receiverId : Option String
  content : Option String
  messageId : Option String
  timestamp : Option Nat
  roomId : Option String
deriving Repr, DecidableEq

/-! ### Handlers -/

/-- The `signin` handler: records `socket.userId`, upserts the
`connectedUsers` entry (status `'online'`, `lastSeen` now), acknowledges
`signin_success` to the caller and broadcasts the updated users list. -/
def signin (st : ServerState) (sock : Nat) (d : SigninData) (now : Nat) :
    ServerState × List Event :=
  let name := strOr d.name "User"
  let email := d.email.getD ""
  let entry : ConnectionEntry :=
    { userId := d.userId, socketId := sock, name := name, email := email,
      status := "online", lastSeen := now }
  let reg' := mapSet st.reg entry
  (⟨reg', st.log, setSockUser st.socketUser sock d.userId⟩,
   [.signinSuccess sock d.userId, broadcastUsersList reg' now])

/-- Result of one `send_message` handling: the (possibly extended) log,
the emitted events, and whether the handler threw before reaching the
`try` block (`content.substring` on an `undefined` content). -/
structure SendResult where
  log : List Message
  events : List Event
  crashed : Bool
deriving Repr, DecidableEq

/-- The message document built inside the `send_message` handler's `try`
block (with the `|| 'User'`, generated-`messageId` and `|| now` defaults
applied; absent `sender`/`receiverId` render as `""` here, but such a
document never persists because `saveMessage` checks the raw fields). -/
def buildDoc (d : SendMessageData) (now : Nat) : Message :=
  { sender := d.sender.getD "", senderName := strOr d.senderName "User",
    receiverId := d.receiverId.getD "", content := d.content.getD "",
    messageId := strOr d.messageId (tmplStr d.sender ++ "_" ++ toString now),
    timestamp := natOr d.timestamp now, roomId := d.roomId, read := false }

/-- The `receive_message` payload forwarded to the receiver: the raw
inbound fields with `senderName || 'User'` and `timestamp || now`
defaults (the raw `messageId` is echoed, even when a fresh one was
generated for persistence). -/
def deliveryPayload (d : SendMessageData) (now : Nat) : MessagePayload :=
  { sender := d.sender, senderName := strOr d.senderName "User",
    receiverId := d.receiverId, content := d.content.getD "",
    messageId := d.messageId, timestamp := natOr d.timestamp now,
    roomId := d.roomId }

/-- The `send_message` handler. The logging statement
`content.substring(0, 50)` runs before the `try` block, so an absent
`content` throws and nothing at all is emitted. Inside the `try`: persist
first; on any rejection emit `message_error` to the sender only; on
success deliver to the receiver's socket if registered, otherwise emit
`receiver_offline` to the sender; then emit `message_sent` to the sender
unconditionally. -/
def sendMessage (reg : List ConnectionEntry) (log : List Message)
    (sock : Nat) (d : SendMessageData) (dbFail : Bool) (now : Nat) : SendResult :=
  match d.content with
  | none => { log := log, events := [], crashed := true }
  | some _ =>
    match saveMessage dbFail log d.sender d.receiverId (buildDoc d now) with
    | .error _ =>
      { log := log, events := [.messageError sock d.messageId], crashed := false }
    | .ok log' =>
      match mapGet reg (d.receiverId.getD "") with
      | some receiverData =>
        { log := log',
          events := [.receiveMessage receiverData.socketId (deliveryPayload d now),
                     .messageSent sock d.messageId now],
          crashed := false }
      | none =>
        { log := log',
          events := [.receiverOffline sock d.receiverId,
                     .messageSent sock d.messageId now],
          crashed := false }

/-- The `disconnect` handler: when `socket.userId` was assigned, delete
that user's registry entry (unconditionally — there is no check that the
stored `socketId` is the disconnecting socket), broadcast the updated
users list and broadcast `user_offline`. -/
def disconnect (st : ServerState) (sock : Nat) (now : Nat) :
    ServerState × List Event :=
  match sockUser st sock with
  | none => (st, [])
  | some uid =>
    let userData := mapGet st.reg uid
    let reg' := mapDelete st.reg uid
    (⟨reg', st.log, st.socketUser⟩,
     [broadcastUsersList reg' now,
      .userOffline uid (userData.map (·.name)) now])

/-- The `get_users_list` handler: a `users_list` snapshot to the caller
only. -/
def getUsersList (reg : List ConnectionEntry) (sock : Nat) : List Event :=
  let usersList := usersListSnapshotView reg
  [.usersList sock usersList usersList.length]

/-- The `typing` / `stop_typing` handlers: forward a flag to the
receiver's socket when registered, otherwise drop silently. -/
def typing (st : ServerState) (sock : Nat) (receiverId : Option String)
    (isTyping : Bool) (now : Nat) : List Event :=
  match mapGet st.reg (receiverId.getD "") with
  | some receiver => [.userTyping receiver.socketId (sockUser st sock) isTyping now]
  | none => []

/-! ### Sorting by `timestamp` descending (`.sort(\x7b timestamp: -1 \x7d)`) -/

/-- The MongoDB sort key `timestamp: -1`: newer (or equal) first. -/
def tsDesc (a b : Message) : Prop := b.timestamp ≤ a.timestamp

instance : DecidableRel tsDesc := fun a b => Nat.decLe b.timestamp a.timestamp

instance : IsTotal Message tsDesc := ⟨fun a b => Nat.le_total b.timestamp a.timestamp⟩

instance : IsTrans Message tsDesc := ⟨fun _ _ _ h₁ h₂ => Nat.le_trans h₂ h₁⟩

/-- `Message.find(query).sort(\x7b timestamp: -1 \x7d)`: a stable sort of the
matching documents, newest first. -/
def sortDesc (l : List Message) : List Message := l.insertionSort tsDesc

/-! ### History queries -/

/-- The `$or` selector of the history queries: messages of the
conversation between `userId` and `otherUserId`, in either direction. -/
def pairMatch (userId otherUserId : String) (m : Message) : Bool :=
  (m.sender = userId && m.receiverId = otherUserId) ||
  (m.sender = otherUserId && m.receiverId = userId)

/-- `GET /api/messages/history/:userId/:otherUserId`: filter the pair,
sort `timestamp` descending, `skip` then `limit` (MongoDB applies skip
before limit regardless of chaining order), then `messages.reverse()` so
the page is returned oldest first. -/
def history (log : List Message) (userId otherUserId : String)
    (limit skip : Nat) : List Message :=
  ((((sortDesc (log.filter (pairMatch userId otherUserId)))).drop skip).take limit).reverse

/-- The `request_chat_history` socket handler's query: same as `history`
with no skip. -/
def historySocket (log : List Message) (userId otherUserId : String)
    (limit : Nat) : List Message :=
  ((sortDesc (log.filter (pairMatch userId otherUserId))).take limit).reverse

/-! ### Conversations aggregation -/

/-- The aggregation's `$match` stage: `sender = userId` or
`receiverId = userId`. -/
def convMatch (userId : String) (m : Message) : Bool :=
  m.sender = userId || m.receiverId = userId

/-- The `$group` key: `$cond [sender = userId, receiverId, sender]` — the
conversation counterpart. -/
def convKey (userId : String) (m : Message) : String :=
  if m.sender = userId then m.receiverId else m.sender

/-- The `$sum $cond` accumulator for `unreadCount`:
`receiverId = userId ∧ read = false`. -/
def unreadCond (userId : String) (m : Message) : Bool :=
  m.receiverId = userId && m.read = false

/-- One element of the aggregation result: `_id` is the counterpart,
`lastMessage` the `$first` document of the group in sorted order,
`unreadCount` the `$sum` over the group. -/
structure ConversationSummary where
  id : String
  lastMessage : Message
  unreadCount : Nat
deriving Repr, DecidableEq

/-- `GET /api/messages/conversations/:userId`: `$match` on participation,
`$sort` by `timestamp` descending, `$group` by counterpart taking the
`$first` (i.e. most recent) document and summing the unread condition.
The group output order is unspecified by MongoDB; the model enumerates
the distinct keys of the sorted stream. -/
def conversations (log : List Message) (userId : String) :
    List ConversationSummary :=
  let sorted := sortDesc (log.filter (convMatch userId))
  (sorted.map (convKey userId)).dedup.map (fun g =>
    let grp := sorted.filter (fun m => convKey userId m = g)
    { id := g,
      lastMessage := grp.headI,
      unreadCount := grp.countP (unreadCond userId) })

/-! ### Mark-read -/

/-- `POST /api/messages/mark-read`: `updateMany` with filter
`sender = otherUserId ∧ receiverId = userId ∧ read = false` and update
`$set \x7b read: true \x7d`. -/
def markRead (log : List Message) (userId otherUserId : String) : List Message :=
  log.map (fun m =>
    if m.sender = otherUserId && m.receiverId = userId && m.read = false then
      { m with read := true }
    else m)

/-! ### The event loop -/

/-- An inbound event together with its payload, the ambient time at which
the handler runs, and (for `send_message`) the durable-store write
oracle. -/
inductive Op where
  | signin (sock : Nat) (d : SigninData) (now : Nat)
  | sendMessage (sock : Nat) (d : SendMessageData) (dbFail : Bool) (now : Nat)
  | disconnect (sock : Nat) (now : Nat)
  | getUsersList (sock : Nat)
  | typing (sock : Nat) (receiverId : Option String) (isTyping : Bool) (now : Nat)
deriving Repr, DecidableEq

/-- Dispatch one inbound event to its handler. -/
def step (st : ServerState) (op : Op) : ServerState × List Event :=
  match op with
  | .signin sock d now => signin st sock d now
  | .sendMessage sock d dbFail now =>
    let r := sendMessage st.reg st.log sock d dbFail now
    (⟨st.reg, r.log, st.socketUser⟩, r.events)
  | .disconnect sock now => disconnect st sock now
  | .getUsersList sock => (st, getUsersList st.reg sock)
  | .typing sock receiverId isTyping now => (st, typing st sock receiverId isTyping now)

/-- Run a sequence of inbound events from a state. -/
def run (st : ServerState) : List Op → ServerState
  | [] => st
  | op :: ops => run (step st op).1 ops

/-- At most one registry entry per `userId`: the keys are pairwise
distinct. -/
def keysNodup (reg : List ConnectionEntry) : Prop :=
  (reg.map (·.userId)).Nodup

/-! ### Helper lemmas about the registry map -/

theorem mapGet_mapDelete_self (reg : List ConnectionEntry) (u : String) :
    mapGet (mapDelete reg u) u = none := by
  induction reg with
  | nil => rfl
  | cons e rest ih =>
    by_cases h : e.userId = u <;>
      simp [mapGet, mapDelete, List.filter, List.find?, h] at ih ⊢

/-- C2 (amended): the `disconnect` handler, when `socket.userId` is set,
removes that user's registry entry unconditionally — with no check that
the stored `socketId` still is the disconnecting socket — and always
emits the users-list broadcast and a `user_offline` broadcast; when
`socket.userId` was never set it does nothing. -/
theorem disconnect_unconditional_removal (st : ServerState) (sock now : Nat)
    (uid : String) (h : sockUser st sock = some uid) :
    (disconnect st sock now).1.reg = mapDelete st.reg uid ∧
    mapGet (disconnect st sock now).1.reg uid = none ∧
    (disconnect st sock now).2 =
      [broadcastUsersList (mapDelete st.reg uid) now,
       .userOffline uid ((mapGet st.reg uid).map (·.name)) now] := by
  refine ⟨?_, ?_, ?_⟩ <;> simp [disconnect, h, mapGet_mapDelete_self]

theorem disconnect_unconditional_removal_witness :
    (sockUser ⟨[⟨"A", 2, "Alice", "", "online", 20⟩], [], [(1, "A"), (2, "A")]⟩ 1 = some "A") ∧
    ((disconnect ⟨[⟨"A", 2, "Alice", "", "online", 20⟩], [], [(1, "A"), (2, "A")]⟩ 1 30).1.reg =
      mapDelete [⟨"A", 2, "Alice", "", "online", 20⟩] "A" ∧
     mapGet (disconnect ⟨[⟨"A", 2, "Alice", "", "online", 20⟩], [], [(1, "A"), (2, "A")]⟩ 1 30).1.reg "A" = none ∧
     (disconnect ⟨[⟨"A", 2, "Alice", "", "online", 20⟩], [], [(1, "A"), (2, "A")]⟩ 1 30).2 =
       [broadcastUsersList (mapDelete [⟨"A", 2, "Alice", "", "online", 20⟩] "A") 30,
        .userOffline "A" ((mapGet [⟨"A", 2, "Alice", "", "online", 20⟩] "A").map (·.name)) 30]) :=
  ⟨by decide,
   disconnect_unconditional_removal ⟨[⟨"A", 2, "Alice", "", "online", 20⟩], [], [(1, "A"), (2, "A")]⟩ 1 30 "A" (by decide)⟩

/-- C2 (counterexample): `A` signs in on socket 1 and again on socket 2;
the registry then holds one entry for `A` pointing at socket 2. When
socket 1 later disconnects, the handler nevertheless removes `A`'s entry
(the one registered by socket 2) and broadcasts `user_offline` for `A`,
contradicting the claim that a stale disconnect removes nothing and
broadcasts no offline event. -/
theorem disconnect_reconnect_race_cex :
    mapGet (run initialState
      [.signin 1 ⟨"A", some "Alice", none⟩ 10,
       .signin 2 ⟨"A", some "Alice", none⟩ 20]).reg "A" =
      some ⟨"A", 2, "Alice", "", "online", 20⟩ ∧
    mapGet (disconnect (run initialState
      [.signin 1 ⟨"A", some "Alice", none⟩ 10,
       .signin 2 ⟨"A", some "Alice", none⟩ 20]) 1 30).1.reg "A" = none ∧
    Event.userOffline "A" (some "Alice") 30 ∈
      (disconnect (run initialState
        [.signin 1 ⟨"A", some "Alice", none⟩ 10,
         .signin 2 ⟨"A", some "Alice", none⟩ 20]) 1 30).2 := by
  decide

/-- C10: both users-list projections stamp every entry with the literal
status `'online'` — the status stored in the registry entry is never
consulted — and the `users_list_updated` projection stamps `lastSeen`
with the emission time; the handlers emit exactly these projections. -/
theorem users_list_status_online (reg : List ConnectionEntry) (now sock : Nat) :
    broadcastUsersList reg now =
      .usersListUpdated (usersListBroadcastView reg now)
        (usersListBroadcastView reg now).length now ∧
    getUsersList reg sock =
      [.usersList sock (usersListSnapshotView reg) (usersListSnapshotView reg).length] ∧
    (∀ v ∈ usersListBroadcastView reg now, v.status = "online" ∧ v.lastSeen = some now) ∧
    (∀ v ∈ usersListSnapshotView reg, v.status = "online" ∧ v.lastSeen = none) := by
  refine ⟨rfl, rfl, ?_, ?_⟩ <;>
    · intro v hv
      simp only [usersListBroadcastView, usersListSnapshotView, List.mem_map] at hv
      obtain ⟨u, _, rfl⟩ := hv
      exact ⟨rfl, rfl⟩

theorem mapSet_cons_ne (x : ConnectionEntry) (rest : List ConnectionEntry)
    (e : ConnectionEntry) (hx : x.userId ≠ e.userId) :
    mapSet (x :: rest) e = x :: mapSet rest e := by
  cases hp : rest.any (fun y => y.userId = e.userId) <;>
    simp [mapSet, List.any_cons, hx, hp]

theorem mapGet_mapSet_self (reg : List ConnectionEntry) (e : ConnectionEntry) :
    mapGet (mapSet reg e) e.userId = some e := by
  induction reg with
  | nil => simp [mapGet, mapSet, List.find?]
  | cons x rest ih =>
    by_cases hx : x.userId = e.userId
    · simp [mapSet, mapGet, List.any_cons, hx, List.find?]
    · rw [mapSet_cons_ne x rest e hx]
      simpa [mapGet, List.find?, hx] using ih

theorem find?_map_invariant (reg : List ConnectionEntry)
    (f : ConnectionEntry → ConnectionEntry) (p : ConnectionEntry → Bool)
    (hp : ∀ x, p (f x) = p x) (hfix : ∀ x, p x = true → f x = x) :
    (reg.map f).find? p = reg.find? p := by
  induction reg with
  | nil => rfl
  | cons x rest ih =>
    cases hx : p x with
    | true => simp [List.find?, hp, hx, hfix x hx]
    | false => simpa [List.find?, hp, hx] using ih

theorem find?_append_singleton_of_neg (reg : List ConnectionEntry)
    (e : ConnectionEntry) (p : ConnectionEntry → Bool) (he : p e = false) :
    (reg ++ [e]).find? p = reg.find? p := by
  induction reg with
  | nil => simp [List.find?, he]
  | cons x rest ih =>
    cases hx : p x <;> simp [List.find?, hx, ih]

theorem mapGet_mapSet_ne (reg : List ConnectionEntry) (e : ConnectionEntry)
    (u : String) (hu : u ≠ e.userId) :
    mapGet (mapSet reg e) u = mapGet reg u := by
  unfold mapSet mapGet
  cases hp : reg.any (fun x => x.userId = e.userId) with
  | true =>
    rw [if_pos rfl]
    refine find?_map_invariant reg _ _ ?_ ?_
    · intro x
      by_cases hx : x.userId = e.userId
      · simp [hx]
      · simp only [if_neg hx]
    · intro x hx
      have hxu : x.userId = u := of_decide_eq_true hx
      rw [if_neg (fun hxe => hu (hxu.symm.trans hxe))]
  | false =>
    rw [if_neg Bool.false_ne_true]
    refine find?_append_singleton_of_neg reg e _ ?_
    exact decide_eq_false (fun hh => hu hh.symm)

theorem keys_mapSet_present (reg : List ConnectionEntry) (e : ConnectionEntry)
    (h : reg.any (fun x => x.userId = e.userId) = true) :
    (mapSet reg e).map (·.userId) = reg.map (·.userId) := by
  unfold mapSet
  rw [if_pos h, List.map_map]
  refine List.map_congr_left ?_
  intro x _
  by_cases hx : x.userId = e.userId <;> simp [hx]

theorem keysNodup_mapSet (reg : List ConnectionEntry) (e : ConnectionEntry)
    (h : keysNodup reg) : keysNodup (mapSet reg e) := by
  cases hp : reg.any (fun x => x.userId = e.userId) with
  | true => unfold keysNodup; rw [keys_mapSet_present reg e hp]; exact h
  | false =>
    have hmem : e.userId ∉ reg.map (·.userId) := by
      simp only [List.any_eq_false] at hp
      intro hm
      obtain ⟨x, hx, hxe⟩ := List.mem_map.mp hm
      exact hp x hx (by simpa using hxe)
    unfold keysNodup
    rw [mapSet, if_neg (by rw [hp]; exact Bool.false_ne_true), List.map_append,
      List.nodup_append]
    refine ⟨h, List.nodup_singleton _, ?_⟩
    intro a ha hb
    simp only [List.map_cons, List.map_nil, List.mem_singleton] at hb
    exact hmem (hb ▸ ha)

theorem keysNodup_mapDelete (reg : List ConnectionEntry) (u : String)
    (h : keysNodup reg) : keysNodup (mapDelete reg u) :=
  h.sublist ((List.filter_sublist reg).map (·.userId))

theorem countP_le_one_of_keysNodup (reg : List ConnectionEntry) (u : String)
    (h : keysNodup reg) : reg.countP (fun e => e.userId = u) ≤ 1 := by
  induction reg with
  | nil => simp
  | cons e rest ih =>
    unfold keysNodup at h
    rw [List.map_cons, List.nodup_cons] at h
    by_cases he : e.userId = u
    · have h0 : rest.countP (fun x => x.userId = u) = 0 := by
        rw [List.countP_eq_zero]
        intro x hx
        simp only [decide_eq_true_eq]
        intro hxu
        exact h.1 (List.mem_map.mpr ⟨x, hx, by rw [hxu, he]⟩)
      simp [List.countP_cons, he, h0]
    · simp only [List.countP_cons, decide_eq_true_eq, he, if_false]
      simpa using ih h.2

theorem one_le_countP_of_mapGet_some (reg : List ConnectionEntry) (u : String)
    (e : ConnectionEntry) (h : mapGet reg u = some e) :
    1 ≤ reg.countP (fun x => x.userId = u) := by
  have hmem := List.mem_of_find?_eq_some h
  have hpred := List.find?_some h
  exact List.countP_pos_iff.mpr ⟨e, hmem, hpred⟩

theorem keysNodup_step (st : ServerState) (op : Op) (h : keysNodup st.reg) :
    keysNodup (step st op).1.reg := by
  cases op with
  | signin sock d now => exact keysNodup_mapSet st.reg _ h
  | sendMessage sock d dbFail now => exact h
  | disconnect sock now =>
    simp only [step, disconnect]
    cases hs : sockUser st sock with
    | none => simpa [hs] using h
    | some uid => simpa [hs] using keysNodup_mapDelete st.reg uid h
  | getUsersList sock => exact h
  | typing sock receiverId isTyping now => exact h

theorem keysNodup_run (ops : List Op) (st : ServerState) (h : keysNodup st.reg) :
    keysNodup (run st ops).reg := by
  induction ops generalizing st with
  | nil => exact h
  | cons op rest ih => exact ih (step st op).1 (keysNodup_step st op h)

/-- C3: the registry holds at most one entry per `userId` at any
reachable instant (keys pairwise distinct after any run of inbound
events from the initial state), and a `signin` for an already-registered
`userId` replaces the prior entry in place: afterwards exactly one entry
with that `userId` exists, it is the new entry, and all other users'
entries are untouched. -/
theorem registry_at_most_one_entry :
    (∀ ops : List Op, keysNodup (run initialState ops).reg) ∧
    (∀ (st : ServerState) (sock : Nat) (d : SigninData) (now : Nat),
       keysNodup st.reg →
       keysNodup (signin st sock d now).1.reg ∧
       ((signin st sock d now).1.reg).countP (fun e => e.userId = d.userId) = 1 ∧
       mapGet (signin st sock d now).1.reg d.userId =
         some ⟨d.userId, sock, strOr d.name "User", d.email.getD "", "online", now⟩ ∧
       (∀ u, u ≠ d.userId → mapGet (signin st sock d now).1.reg u = mapGet st.reg u)) := by
  constructor
  · intro ops
    exact keysNodup_run ops initialState (by simp [initialState, keysNodup])
  · intro st sock d now h
    have hset : (signin st sock d now).1.reg =
        mapSet st.reg ⟨d.userId, sock, strOr d.name "User", d.email.getD "", "online", now⟩ := rfl
    have hnd : keysNodup (signin st sock d now).1.reg := by
      rw [hset]; exact keysNodup_mapSet st.reg _ h
    have hget : mapGet (signin st sock d now).1.reg d.userId =
        some ⟨d.userId, sock, strOr d.name "User", d.email.getD "", "online", now⟩ := by
      rw [hset]
      exact mapGet_mapSet_self st.reg _
    refine ⟨hnd, ?_, hget, ?_⟩
    · exact Nat.le_antisymm
        (countP_le_one_of_keysNodup _ _ hnd)
        (one_le_countP_of_mapGet_some _ _ _ hget)
    · intro u hu
      rw [hset]
      exact mapGet_mapSet_ne st.reg _ u hu

theorem registry_at_most_one_entry_witness :
    keysNodup (run initialState
      [.signin 1 ⟨"A", some "Alice", none⟩ 10,
       .signin 2 ⟨"A", some "Alice", none⟩ 20]).reg ∧
    (keysNodup (signin ⟨[⟨"A", 1, "Alice", "", "online", 10⟩], [], [(1, "A")]⟩
        2 ⟨"A", some "Alice", none⟩ 20).1.reg ∧
     ((signin ⟨[⟨"A", 1, "Alice", "", "online", 10⟩], [], [(1, "A")]⟩
        2 ⟨"A", some "Alice", none⟩ 20).1.reg).countP (fun e => e.userId = "A") = 1 ∧
     mapGet (signin ⟨[⟨"A", 1, "Alice", "", "online", 10⟩], [], [(1, "A")]⟩
        2 ⟨"A", some "Alice", none⟩ 20).1.reg "A" =
       some ⟨"A", 2, strOr (some "Alice") "User", (none : Option String).getD "", "online", 20⟩ ∧
     (∀ u, u ≠ "A" →
       mapGet (signin ⟨[⟨"A", 1, "Alice", "", "online", 10⟩], [], [(1, "A")]⟩
          2 ⟨"A", some "Alice", none⟩ 20).1.reg u =
       mapGet [⟨"A", 1, "Alice", "", "online", 10⟩] u)) :=
  ⟨registry_at_most_one_entry.1
     [.signin 1 ⟨"A", some "Alice", none⟩ 10, .signin 2 ⟨"A", some "Alice", none⟩ 20],
   registry_at_most_one_entry.2 ⟨[⟨"A", 1, "Alice", "", "online", 10⟩], [], [(1, "A")]⟩
     2 ⟨"A", some "Alice", none⟩ 20 (by unfold keysNodup; decide)⟩

/-! ### Lemmas about `saveMessage` -/

theorem saveMessage_ok_eq (dbFail : Bool) (log : List Message)
    (s r : Option String) (doc : Message) (log' : List Message)
    (h : saveMessage dbFail log s r doc = .ok log') : log' = log ++ [doc] := by
  unfold saveMessage at h
  split_ifs at h
  simp_all

theorem saveMessage_ok_content_ne (dbFail : Bool) (log : List Message)
    (s r : Option String) (doc : Message) (log' : List Message)
    (h : saveMessage dbFail log s r doc = .ok log') : doc.content ≠ "" := by
  unfold saveMessage at h
  by_cases h₁ : reqOk s = true ∧ reqOk r = true ∧ doc.content ≠ ""
  · exact h₁.2.2
  · simp [h₁] at h

/-- C1: the `send_message` handler persists before it delivers: a
`receive_message` event is emitted only when `Message.save()` succeeded
(and then the log grew by exactly the built document); when the durable
write fails for a non-duplicate, non-validation reason
(`PersistenceFailure`), and in fact on any `save()` rejection, the only
emitted event is `message_error` to the sender's socket and the log is
unchanged — no delivery, no partial state. -/
theorem persist_precedes_delivery (reg : List ConnectionEntry)
    (log : List Message) (sock : Nat) (d : SendMessageData)
    (dbFail : Bool) (now : Nat) :
    (∀ s p, Event.receiveMessage s p ∈ (sendMessage reg log sock d dbFail now).events →
       saveMessage dbFail log d.sender d.receiverId (buildDoc d now) =
         .ok (sendMessage reg log sock d dbFail now).log ∧
       (sendMessage reg log sock d dbFail now).log = log ++ [buildDoc d now]) ∧
    (∀ c, d.content = some c → reqOk d.sender = true → reqOk d.receiverId = true →
       c ≠ "" → dbFail = true →
       saveMessage dbFail log d.sender d.receiverId (buildDoc d now) =
         .error .persistenceFailure ∧
       (sendMessage reg log sock d dbFail now).events = [.messageError sock d.messageId] ∧
       (sendMessage reg log sock d dbFail now).log = log) ∧
    (∀ e, saveMessage dbFail log d.sender d.receiverId (buildDoc d now) = .error e →
       d.content ≠ none →
       (sendMessage reg log sock d dbFail now).events = [.messageError sock d.messageId] ∧
       (sendMessage reg log sock d dbFail now).log = log) := by
  refine ⟨?_, ?_, ?_⟩
  · intro s p hmem
    cases hc : d.content with
    | none => simp [sendMessage, hc] at hmem
    | some c =>
      cases hs : saveMessage dbFail log d.sender d.receiverId (buildDoc d now) with
      | error e => simp [sendMessage, hc, hs] at hmem
      | ok log' =>
        have hshape := saveMessage_ok_eq dbFail log d.sender d.receiverId (buildDoc d now) log' hs
        cases hrecv : mapGet reg (d.receiverId.getD "") <;>
          simp_all [sendMessage, hc, hs, hrecv]
  · intro c hc hsnd hrcv hcne hdb
    have hsave : saveMessage dbFail log d.sender d.receiverId (buildDoc d now) =
        .error .persistenceFailure := by
      simp [saveMessage, buildDoc, hc, hsnd, hrcv, hcne, hdb]
    exact ⟨hsave, by simp [sendMessage, hc, hsave], by simp [sendMessage, hc, hsave]⟩
  · intro e hs hcn
    cases hc : d.content with
    | none => exact absurd hc hcn
    | some c => exact ⟨by simp [sendMessage, hc, hs], by simp [sendMessage, hc, hs]⟩

theorem persist_precedes_delivery_witness :
    saveMessage true []
      (some "A") (some "B")
      (buildDoc ⟨some "A", some "Alice", some "B", some "hi", some "m1", some 10, none⟩ 20) =
      .error .persistenceFailure ∧
    (sendMessage [] [] 1
      ⟨some "A", some "Alice", some "B", some "hi", some "m1", some 10, none⟩ true 20).events =
      [.messageError 1 (some "m1")] ∧
    (sendMessage [] [] 1
      ⟨some "A", some "Alice", some "B", some "hi", some "m1", some 10, none⟩ true 20).log = [] :=
  (persist_precedes_delivery [] [] 1
    ⟨some "A", some "Alice", some "B", some "hi", some "m1", some 10, none⟩ true 20).2.1
    "hi" rfl (by decide) (by decide) (by decide) rfl

/-- C4: a second send whose `messageId` already occurs in the log is
rejected by the unique index with the distinct error kind
`duplicateMessageId`; the handler then performs no delivery, emits only
`message_error` to the sender, and the log — in particular the
originally persisted record — is unchanged. -/
theorem duplicate_messageId_rejected (reg : List ConnectionEntry)
    (log : List Message) (sock : Nat) (d : SendMessageData) (now : Nat)
    (mid c : String)
    (hmid : d.messageId = some mid) (hmne : mid ≠ "")
    (hc : d.content = some c) (hcne : c ≠ "")
    (hs : reqOk d.sender = true) (hr : reqOk d.receiverId = true)
    (hdup : log.any (fun m => m.messageId = mid) = true) :
    saveMessage false log d.sender d.receiverId (buildDoc d now) =
      .error .duplicateMessageId ∧
    (sendMessage reg log sock d false now).log = log ∧
    (sendMessage reg log sock d false now).events = [.messageError sock (some mid)] ∧
    (∀ s p, Event.receiveMessage s p ∉ (sendMessage reg log sock d false now).events) := by
  have hsave : saveMessage false log d.sender d.receiverId (buildDoc d now) =
      .error .duplicateMessageId := by
    simp [saveMessage, buildDoc, strOr, hc, hmid, hmne, hs, hr, hcne, hdup]
  refine ⟨hsave, ?_, ?_, ?_⟩ <;> simp [sendMessage, hc, hsave, hmid]

theorem duplicate_messageId_rejected_witness :
    saveMessage false [⟨"A", "Alice", "B", "hi", "m1", 10, none, false⟩]
      (some "A") (some "B")
      (buildDoc ⟨some "A", some "Alice", some "B", some "hello again", some "m1", some 30, none⟩ 40) =
      .error .duplicateMessageId ∧
    (sendMessage [] [⟨"A", "Alice", "B", "hi", "m1", 10, none, false⟩] 1
      ⟨some "A", some "Alice", some "B", some "hello again", some "m1", some 30, none⟩ false 40).log =
      [⟨"A", "Alice", "B", "hi", "m1", 10, none, false⟩] ∧
    (sendMessage [] [⟨"A", "Alice", "B", "hi", "m1", 10, none, false⟩] 1
      ⟨some "A", some "Alice", some "B", some "hello again", some "m1", some 30, none⟩ false 40).events =
      [.messageError 1 (some "m1")] ∧
    (∀ s p, Event.receiveMessage s p ∉
      (sendMessage [] [⟨"A", "Alice", "B", "hi", "m1", 10, none, false⟩] 1
        ⟨some "A", some "Alice", some "B", some "hello again", some "m1", some 30, none⟩ false 40).events) :=
  duplicate_messageId_rejected [] [⟨"A", "Alice", "B", "hi", "m1", 10, none, false⟩] 1
    ⟨some "A", some "Alice", some "B", some "hello again", some "m1", some 30, none⟩ 40
    "m1" "hello again" rfl (by decide) rfl (by decide) (by decide) (by decide) (by decide)

/-- C5 (counterexample): with the receiver absent from the registry, a
valid send persists and then emits BOTH `receiver_offline` and
`message_sent` to the sender — `message_sent` is emitted unconditionally
after a successful persist — so the sender does not receive exactly one
acknowledgement with `receiver_offline` in place of `message_sent`. -/
theorem offline_double_ack_cex :
    (sendMessage [] [] 1
      ⟨some "A", some "Alice", some "B", some "hi", some "m1", some 10, none⟩ false 20).events =
      [.receiverOffline 1 (some "B"), .messageSent 1 (some "m1") 20] ∧
    Event.messageSent 1 (some "m1") 20 ∈
      (sendMessage [] [] 1
        ⟨some "A", some "Alice", some "B", some "hi", some "m1", some 10, none⟩ false 20).events ∧
    Event.receiverOffline 1 (some "B") ∈
      (sendMessage [] [] 1
        ⟨some "A", some "Alice", some "B", some "hi", some "m1", some 10, none⟩ false 20).events := by
  decide

/-- C5 (amended): after a successful persist, if the receiver is in the
registry the handler emits `receive_message` to the stored receiver
socket followed by `message_sent` to the sender; if the receiver is
absent it emits `receiver_offline` to the sender followed by
`message_sent` to the sender — `message_sent` is emitted in both cases,
so the offline path acknowledges twice. -/
theorem post_persist_ack_events (reg : List ConnectionEntry)
    (log : List Message) (sock : Nat) (d : SendMessageData)
    (dbFail : Bool) (now : Nat) (log' : List Message)
    (hsave : saveMessage dbFail log d.sender d.receiverId (buildDoc d now) = .ok log') :
    (sendMessage reg log sock d dbFail now).log = log' ∧
    (∀ recvE, mapGet reg (d.receiverId.getD "") = some recvE →
       (sendMessage reg log sock d dbFail now).events =
         [.receiveMessage recvE.socketId (deliveryPayload d now),
          .messageSent sock d.messageId now]) ∧
    (mapGet reg (d.receiverId.getD "") = none →
       (sendMessage reg log sock d dbFail now).events =
         [.receiverOffline sock d.receiverId, .messageSent sock d.messageId now]) := by
  cases hc : d.content with
  | none =>
    exfalso
    have := saveMessage_ok_content_ne dbFail log d.sender d.receiverId (buildDoc d now) log' hsave
    simp [buildDoc, hc] at this
  | some c =>
    refine ⟨?_, ?_, ?_⟩
    · cases hrecv : mapGet reg (d.receiverId.getD "") <;>
        simp [sendMessage, hc, hsave, hrecv]
    · intro recvE hrecv
      simp [sendMessage, hc, hsave, hrecv]
    · intro hrecv
      simp [sendMessage, hc, hsave, hrecv]

theorem post_persist_ack_events_witness :
    (sendMessage [⟨"B", 7, "Bob", "", "online", 5⟩] [] 1
      ⟨some "A", some "Alice", some "B", some "hi", some "m1", some 10, none⟩ false 20).log =
      [⟨"A", "Alice", "B", "hi", "m1", 10, none, false⟩] ∧
    (∀ recvE, mapGet [⟨"B", 7, "Bob", "", "online", 5⟩]
        ((⟨some "A", some "Alice", some "B", some "hi", some "m1", some 10, none⟩ :
          SendMessageData).receiverId.getD "") = some recvE →
       (sendMessage [⟨"B", 7, "Bob", "", "online", 5⟩] [] 1
         ⟨some "A", some "Alice", some "B", some "hi", some "m1", some 10, none⟩ false 20).events =
         [.receiveMessage recvE.socketId
            (deliveryPayload ⟨some "A", some "Alice", some "B", some "hi", some "m1", some 10, none⟩ 20),
          .messageSent 1 (some "m1") 20]) ∧
    (mapGet [⟨"B", 7, "Bob", "", "online", 5⟩]
        ((⟨some "A", some "Alice", some "B", some "hi", some "m1", some 10, none⟩ :
          SendMessageData).receiverId.getD "") = none →
       (sendMessage [⟨"B", 7, "Bob", "", "online", 5⟩] [] 1
         ⟨some "A", some "Alice", some "B", some "hi", some "m1", some 10, none⟩ false 20).events =
         [.receiverOffline 1 (some "B"), .messageSent 1 (some "m1") 20]) :=
  post_persist_ack_events [⟨"B", 7, "Bob", "", "online", 5⟩] [] 1
    ⟨some "A", some "Alice", some "B", some "hi", some "m1", some 10, none⟩ false 20
    [⟨"A", "Alice", "B", "hi", "m1", 10, none, false⟩] rfl

/-- C6 (counterexample): a `send_message` whose `content` field is
absent makes the handler throw at `content.substring(0, 50)` before the
`try` block: nothing is persisted, but no `message_error` (nor any other
event) is reported to the sender, contradicting the claim that every
missing-field send fails with a validation error reported to the
sender. -/
theorem missing_content_no_report_cex :
    sendMessage [] [] 1
      ⟨some "A", some "Alice", some "B", none, some "m9", none, none⟩ false 20 =
      { log := [], events := [], crashed := true } := by
  decide

/-- C6 (amended): when `content` is present, a missing or empty `sender`
or `receiverId` or an empty `content` makes `Message.save()` fail
Mongoose `required` validation: nothing is persisted and the sender
alone gets `message_error`; when `content` is absent the handler throws
before the `try` block, so nothing is persisted and nothing at all is
reported. -/
theorem send_validation_behavior (reg : List ConnectionEntry)
    (log : List Message) (sock : Nat) (d : SendMessageData)
    (dbFail : Bool) (now : Nat) :
    (d.content = none →
       sendMessage reg log sock d dbFail now =
         { log := log, events := [], crashed := true }) ∧
    (∀ c, d.content = some c →
       (reqOk d.sender = false ∨ reqOk d.receiverId = false ∨ c = "") →
       saveMessage dbFail log d.sender d.receiverId (buildDoc d now) =
         .error .validationError ∧
       (sendMessage reg log sock d dbFail now).events = [.messageError sock d.messageId] ∧
       (sendMessage reg log sock d dbFail now).log = log) := by
  constructor
  · intro hc
    simp [sendMessage, hc]
  · intro c hc hbad
    have hsave : saveMessage dbFail log d.sender d.receiverId (buildDoc d now) =
        .error .validationError := by
      rcases hbad with h | h | h <;> simp [saveMessage, buildDoc, hc, h]
    exact ⟨hsave, by simp [sendMessage, hc, hsave], by simp [sendMessage, hc, hsave]⟩

theorem send_validation_behavior_witness :
    saveMessage false []
      (none) (some "B")
      (buildDoc ⟨none, some "Alice", some "B", some "hi", some "m9", none, none⟩ 20) =
      .error .validationError ∧
    (sendMessage [] [] 1
      ⟨none, some "Alice", some "B", some "hi", some "m9", none, none⟩ false 20).events =
      [.messageError 1 (some "m9")] ∧
    (sendMessage [] [] 1
      ⟨none, some "Alice", some "B", some "hi", some "m9", none, none⟩ false 20).log = [] :=
  (send_validation_behavior [] [] 1
    ⟨none, some "Alice", some "B", some "hi", some "m9", none, none⟩ false 20).2
    "hi" rfl (Or.inl (by decide))

/-! ### Lemmas for `markRead` -/

theorem markRead_getD (log : List Message) (A B : String) (i : Nat)
    (hi : i < log.length) :
    (markRead log A B).getD i default =
      (if (log.getD i default).sender = B ∧ (log.getD i default).receiverId = A ∧
          (log.getD i default).read = false
       then { log.getD i default with read := true }
       else log.getD i default) := by
  induction log generalizing i with
  | nil => simp at hi
  | cons m rest ih =>
    cases i with
    | zero =>
      simp only [markRead, List.map_cons, List.getD_cons_zero]
      by_cases h1 : m.sender = B <;> by_cases h2 : m.receiverId = A <;>
        cases h3 : m.read <;> simp [h1, h2, h3]
    | succ j =>
      simp only [markRead, List.map_cons, List.getD_cons_succ]
      simp only [markRead] at ih
      exact ih j (by simpa using hi)

theorem markRead_idem (log : List Message) (A B : String) :
    markRead (markRead log A B) A B = markRead log A B := by
  unfold markRead
  rw [List.map_map]
  refine List.map_congr_left ?_
  intro m _
  by_cases h1 : m.sender = B <;> by_cases h2 : m.receiverId = A <;>
    cases h3 : m.read <;> simp [Function.comp, h1, h2, h3]

theorem markRead_noop (log : List Message) (A B : String)
    (h : ∀ m ∈ log, ¬(m.sender = B ∧ m.receiverId = A ∧ m.read = false)) :
    markRead log A B = log := by
  unfold markRead
  conv_rhs => rw [← List.map_id log]
  refine List.map_congr_left ?_
  intro m hm
  by_cases h1 : m.sender = B <;> by_cases h2 : m.receiverId = A <;>
    cases h3 : m.read <;> simp [h1, h2, h3]
  exact absurd ⟨h1, h2, h3⟩ (h m hm)

/-- C7: `markRead log A B` (the mark-read route called with
`userId = A`, `otherUserId = B`) keeps the log's length, rewrites
position-wise exactly the messages with `sender = B`, `receiverId = A`,
`read = false` to `read = true`, leaves every other message (including
those with `receiverId = A` but another sender) unchanged, is
idempotent, and is the identity when no message matches. -/
theorem markRead_exact_frame (log : List Message) (A B : String) :
    (markRead log A B).length = log.length ∧
    (∀ i, i < log.length →
      (markRead log A B).getD i default =
        (if (log.getD i default).sender = B ∧ (log.getD i default).receiverId = A ∧
            (log.getD i default).read = false
         then { log.getD i default with read := true }
         else log.getD i default)) ∧
    markRead (markRead log A B) A B = markRead log A B ∧
    ((∀ m ∈ log, ¬(m.sender = B ∧ m.receiverId = A ∧ m.read = false)) →
      markRead log A B = log) :=
  ⟨by simp [markRead],
   fun i hi => markRead_getD log A B i hi,
   markRead_idem log A B,
   markRead_noop log A B⟩

theorem markRead_exact_frame_witness :
    (markRead ([⟨"B", "b", "A", "x", "w1", 1, none, false⟩,
                ⟨"C", "c", "A", "y", "w2", 2, none, false⟩] : List Message)
        "A" "B").getD 0 default =
      (if (([⟨"B", "b", "A", "x", "w1", 1, none, false⟩,
             ⟨"C", "c", "A", "y", "w2", 2, none, false⟩] : List Message).getD 0
              default).sender = "B" ∧
          (([⟨"B", "b", "A", "x", "w1", 1, none, false⟩,
             ⟨"C", "c", "A", "y", "w2", 2, none, false⟩] : List Message).getD 0
              default).receiverId = "A" ∧
          (([⟨"B", "b", "A", "x", "w1", 1, none, false⟩,
             ⟨"C", "c", "A", "y", "w2", 2, none, false⟩] : List Message).getD 0
              default).read = false
       then { ([⟨"B", "b", "A", "x", "w1", 1, none, false⟩,
               ⟨"C", "c", "A", "y", "w2", 2, none, false⟩] : List Message).getD 0
                default with read := true }
       else ([⟨"B", "b", "A", "x", "w1", 1, none, false⟩,
              ⟨"C", "c", "A", "y", "w2", 2, none, false⟩] : List Message).getD 0
               default) ∧
    markRead (markRead ([⟨"B", "b", "A", "x", "w1", 1, none, false⟩,
                ⟨"C", "c", "A", "y", "w2", 2, none, false⟩] : List Message) "A" "B")
        "A" "B" =
      markRead ([⟨"B", "b", "A", "x", "w1", 1, none, false⟩,
                 ⟨"C", "c", "A", "y", "w2", 2, none, false⟩] : List Message) "A" "B" ∧
    markRead ([⟨"C", "c", "A", "y", "w9", 7, none, false⟩] : List Message) "A" "B" =
      ([⟨"C", "c", "A", "y", "w9", 7, none, false⟩] : List Message) :=
  ⟨(markRead_exact_frame
      ([⟨"B", "b", "A", "x", "w1", 1, none, false⟩,
        ⟨"C", "c", "A", "y", "w2", 2, none, false⟩] : List Message) "A" "B").2.1
      0 (by decide),
   (markRead_exact_frame
      ([⟨"B", "b", "A", "x", "w1", 1, none, false⟩,
        ⟨"C", "c", "A", "y", "w2", 2, none, false⟩] : List Message) "A" "B").2.2.1,
   (markRead_exact_frame
      ([⟨"C", "c", "A", "y", "w9", 7, none, false⟩] : List Message) "A" "B").2.2.2
     (by decide)⟩

/-! ### Lemmas for the history queries -/

theorem sortDesc_perm (l : List Message) : (sortDesc l).Perm l :=
  List.perm_insertionSort tsDesc l

theorem sortDesc_sorted (l : List Message) : List.Sorted tsDesc (sortDesc l) :=
  List.sorted_insertionSort tsDesc l

theorem history_page_sublist (log : List Message) (a b : String)
    (limit skip : Nat) :
    (((sortDesc (log.filter (pairMatch a b))).drop skip).take limit).Sublist
      (sortDesc (log.filter (pairMatch a b))) :=
  (List.take_sublist _ _).trans (List.drop_sublist _ _)

/-- C9: the history endpoint returns, page by page, exactly the messages
between the two users: the returned list reversed is the `limit`-sized
page at offset `skip` of the `timestamp`-descending ordering of the
pair-filtered log; every returned message belongs to the log and to the
conversation; the page is returned in chronological (oldest-first)
order; its length is the page arithmetic; a full first page is a
permutation of the whole filtered conversation; and the socket-handler
variant equals the endpoint with `skip = 0`. -/
theorem history_correct (log : List Message) (a b : String) (limit skip : Nat) :
    (history log a b limit skip).reverse =
      ((sortDesc (log.filter (pairMatch a b))).drop skip).take limit ∧
    List.Pairwise (fun m₁ m₂ => m₁.timestamp ≤ m₂.timestamp)
      (history log a b limit skip) ∧
    (∀ m ∈ history log a b limit skip, m ∈ log ∧ pairMatch a b m = true) ∧
    (history log a b limit skip).length =
      min limit ((log.filter (pairMatch a b)).length - skip) ∧
    (skip = 0 → (log.filter (pairMatch a b)).length ≤ limit →
      (history log a b limit skip).Perm (log.filter (pairMatch a b))) ∧
    historySocket log a b limit = history log a b limit 0 := by
  refine ⟨?_, ?_, ?_, ?_, ?_, ?_⟩
  · simp [history]
  · rw [history, List.pairwise_reverse]
    exact (sortDesc_sorted _).sublist (history_page_sublist log a b limit skip)
  · intro m hm
    rw [history, List.mem_reverse] at hm
    have hm' : m ∈ sortDesc (log.filter (pairMatch a b)) :=
      (history_page_sublist log a b limit skip).mem hm
    have hm'' : m ∈ log.filter (pairMatch a b) := (sortDesc_perm _).mem_iff.mp hm'
    exact ⟨List.mem_of_mem_filter hm'', List.of_mem_filter hm''⟩
  · simp [history, List.length_take, List.length_drop, (sortDesc_perm _).length_eq]
  · intro hskip hle
    rw [history, hskip, List.drop_zero,
      List.take_of_length_le (by rw [(sortDesc_perm _).length_eq]; exact hle)]
    exact (List.reverse_perm _).trans (sortDesc_perm _)
  · simp [historySocket, history]

theorem history_correct_witness :
    List.Pairwise (fun m₁ m₂ => m₁.timestamp ≤ m₂.timestamp)
      (history [⟨"X", "x", "Y", "a", "h1", 3, none, false⟩,
                ⟨"Y", "y", "X", "b", "h2", 1, none, false⟩,
                ⟨"X", "x", "Z", "c", "h3", 2, none, false⟩] "X" "Y" 5 0) ∧
    (history [⟨"X", "x", "Y", "a", "h1", 3, none, false⟩,
              ⟨"Y", "y", "X", "b", "h2", 1, none, false⟩,
              ⟨"X", "x", "Z", "c", "h3", 2, none, false⟩] "X" "Y" 5 0).Perm
      ([⟨"X", "x", "Y", "a", "h1", 3, none, false⟩,
        ⟨"Y", "y", "X", "b", "h2", 1, none, false⟩,
        ⟨"X", "x", "Z", "c", "h3", 2, none, false⟩].filter (pairMatch "X" "Y")) :=
  ⟨(history_correct [⟨"X", "x", "Y", "a", "h1", 3, none, false⟩,
      ⟨"Y", "y", "X", "b", "h2", 1, none, false⟩,
      ⟨"X", "x", "Z", "c", "h3", 2, none, false⟩] "X" "Y" 5 0).2.1,
   (history_correct [⟨"X", "x", "Y", "a", "h1", 3, none, false⟩,
      ⟨"Y", "y", "X", "b", "h2", 1, none, false⟩,
      ⟨"X", "x", "Z", "c", "h3", 2, none, false⟩] "X" "Y" 5 0).2.2.2.2.1 rfl (by decide)⟩

/-! ### Lemmas for the conversations aggregation -/

theorem mem_sortDesc_filter_iff (u : String) (log : List Message) (m : Message) :
    m ∈ sortDesc (log.filter (convMatch u)) ↔ m ∈ log ∧ convMatch u m = true := by
  rw [(sortDesc_perm _).mem_iff, List.mem_filter]

theorem head_bound_of_sorted (grp : List Message) (h : List.Sorted tsDesc grp)
    (m : Message) (hm : m ∈ grp) : m.timestamp ≤ grp.headI.timestamp := by
  cases grp with
  | nil => cases hm
  | cons x xs =>
    rcases List.mem_cons.mp hm with rfl | hm'
    · exact Nat.le_refl _
    · exact List.rel_of_sorted_cons h m hm'

theorem unread_point (u g : String) (m : Message) :
    (unreadCond u m && decide (convKey u m = g) && convMatch u m) =
    (m.sender = g && m.receiverId = u && m.read = false) := by
  by_cases hs : m.sender = u <;> by_cases hr : m.receiverId = u <;>
    cases hread : m.read <;>
      simp [unreadCond, convKey, convMatch, hs, hr, hread]

theorem conv_unread_transfer (log : List Message) (u g : String) :
    ((sortDesc (log.filter (convMatch u))).filter
        (fun m => convKey u m = g)).countP (unreadCond u) =
    log.countP (fun m => m.sender = g && m.receiverId = u && m.read = false) := by
  rw [List.countP_filter, (sortDesc_perm (log.filter (convMatch u))).countP_eq,
    List.countP_filter]
  have hpt : (fun a => (unreadCond u a && decide (convKey u a = g)) && convMatch u a) =
      (fun m : Message => (m.sender = g && m.receiverId = u && m.read = false : Bool)) :=
    funext (fun m => unread_point u g m)
  rw [hpt]

/-- C8: `conversations log u` yields exactly one summary per distinct
counterpart that ever exchanged a message with `u` (ids are distinct,
and an id occurs iff some logged message of `u`'s conversations has that
counterpart); each summary's `lastMessage` is a message of that
conversation whose `timestamp` is maximal among the counterpart's
messages with `u`; and `unreadCount` counts exactly the log's messages
with `sender = counterpart`, `receiverId = u`, `read = false`. -/
theorem conversations_correct (log : List Message) (u : String) :
    ((conversations log u).map (·.id)).Nodup ∧
    (∀ g, (∃ c ∈ conversations log u, c.id = g) ↔
       (∃ m ∈ log, convMatch u m = true ∧ convKey u m = g)) ∧
    (∀ c ∈ conversations log u,
       c.lastMessage ∈ log ∧ convMatch u c.lastMessage = true ∧
       convKey u c.lastMessage = c.id ∧
       (∀ m ∈ log, convMatch u m = true → convKey u m = c.id →
          m.timestamp ≤ c.lastMessage.timestamp) ∧
       c.unreadCount =
         log.countP (fun m => m.sender = c.id && m.receiverId = u && m.read = false)) := by
  have hids : (conversations log u).map (·.id) =
      ((sortDesc (log.filter (convMatch u))).map (convKey u)).dedup := by
    simp only [conversations, List.map_map]
    exact List.map_id _
  refine ⟨?_, ?_, ?_⟩
  · rw [hids]
    exact List.nodup_dedup _
  · intro g
    constructor
    · rintro ⟨c, hc, rfl⟩
      simp only [conversations, List.mem_map] at hc
      obtain ⟨g', hg', rfl⟩ := hc
      rw [List.mem_dedup, List.mem_map] at hg'
      obtain ⟨m, hm, hkey⟩ := hg'
      obtain ⟨hml, hmc⟩ := (mem_sortDesc_filter_iff u log m).mp hm
      exact ⟨m, hml, hmc, hkey⟩
    · rintro ⟨m, hml, hmc, hkey⟩
      refine ⟨⟨g, ((sortDesc (log.filter (convMatch u))).filter
          (fun m => convKey u m = g)).headI,
          ((sortDesc (log.filter (convMatch u))).filter
          (fun m => convKey u m = g)).countP (unreadCond u)⟩, ?_, rfl⟩
      simp only [conversations, List.mem_map]
      exact ⟨g, by
        rw [List.mem_dedup, List.mem_map]
        exact ⟨m, (mem_sortDesc_filter_iff u log m).mpr ⟨hml, hmc⟩, hkey⟩, rfl⟩
  · intro c hc
    simp only [conversations, List.mem_map] at hc
    obtain ⟨g, hg, rfl⟩ := hc
    rw [List.mem_dedup, List.mem_map] at hg
    obtain ⟨m₀, hm₀, hkey₀⟩ := hg
    have hm₀g : m₀ ∈ (sortDesc (log.filter (convMatch u))).filter
        (fun m => convKey u m = g) :=
      List.mem_filter.mpr ⟨hm₀, decide_eq_true hkey₀⟩
    have hsorted : List.Sorted tsDesc
        ((sortDesc (log.filter (convMatch u))).filter (fun m => convKey u m = g)) :=
      List.Pairwise.sublist (List.filter_sublist _) (sortDesc_sorted _)
    have hhead : ((sortDesc (log.filter (convMatch u))).filter
        (fun m => convKey u m = g)).headI ∈
        (sortDesc (log.filter (convMatch u))).filter (fun m => convKey u m = g) := by
      cases hgrp : (sortDesc (log.filter (convMatch u))).filter
          (fun m => convKey u m = g) with
      | nil => rw [hgrp] at hm₀g; cases hm₀g
      | cons x xs => simp [List.headI]
    have hheadf := List.mem_filter.mp hhead
    have hheadkey : convKey u (((sortDesc (log.filter (convMatch u))).filter
        (fun m => convKey u m = g)).headI) = g := of_decide_eq_true hheadf.2
    obtain ⟨hheadl, hheadc⟩ := (mem_sortDesc_filter_iff u log _).mp hheadf.1
    refine ⟨hheadl, hheadc, hheadkey, ?_, conv_unread_transfer log u g⟩
    intro m hml hmc hkeym
    have hmgrp : m ∈ (sortDesc (log.filter (convMatch u))).filter
        (fun m => convKey u m = g) :=
      List.mem_filter.mpr ⟨(mem_sortDesc_filter_iff u log m).mpr ⟨hml, hmc⟩,
        decide_eq_true hkeym⟩
    exact head_bound_of_sorted _ hsorted m hmgrp

theorem conversations_correct_witness :
    ((conversations ([⟨"Y", "y", "X", "a", "k1", 1, none, false⟩,
        ⟨"Z", "z", "X", "c", "k3", 2, none, false⟩,
        ⟨"Y", "y", "X", "b", "k2", 3, none, false⟩,
        ⟨"X", "x", "Y", "d", "k4", 4, none, false⟩] : List Message) "X").map (·.id)).Nodup ∧
    (∃ m ∈ ([⟨"Y", "y", "X", "a", "k1", 1, none, false⟩,
        ⟨"Z", "z", "X", "c", "k3", 2, none, false⟩,
        ⟨"Y", "y", "X", "b", "k2", 3, none, false⟩,
        ⟨"X", "x", "Y", "d", "k4", 4, none, false⟩] : List Message),
      convMatch "X" m = true ∧ convKey "X" m = "Y") :=
  ⟨(conversations_correct ([⟨"Y", "y", "X", "a", "k1", 1, none, false⟩,
      ⟨"Z", "z", "X", "c", "k3", 2, none, false⟩,
      ⟨"Y", "y", "X", "b", "k2", 3, none, false⟩,
      ⟨"X", "x", "Y", "d", "k4", 4, none, false⟩] : List Message) "X").1,
   ((conversations_correct ([⟨"Y", "y", "X", "a", "k1", 1, none, false⟩,
      ⟨"Z", "z", "X", "c", "k3", 2, none, false⟩,
      ⟨"Y", "y", "X", "b", "k2", 3, none, false⟩,
      ⟨"X", "x", "Y", "d", "k4", 4, none, false⟩] : List Message) "X").2.1 "Y").mp
     (by decide)⟩

theorem users_list_status_online_witness :
    broadcastUsersList [⟨"A", 1, "Alice", "a@x", "away", 5⟩] 30 =
      .usersListUpdated (usersListBroadcastView [⟨"A", 1, "Alice", "a@x", "away", 5⟩] 30)
        (usersListBroadcastView [⟨"A", 1, "Alice", "a@x", "away", 5⟩] 30).length 30 ∧
    getUsersList [⟨"A", 1, "Alice", "a@x", "away", 5⟩] 2 =
      [.usersList 2 (usersListSnapshotView [⟨"A", 1, "Alice", "a@x", "away", 5⟩])
        (usersListSnapshotView [⟨"A", 1, "Alice", "a@x", "away", 5⟩]).length] ∧
    ((⟨"A", "Alice", "a@x", "online", some 30⟩ : UserView).status = "online" ∧
     (⟨"A", "Alice", "a@x", "online", some 30⟩ : UserView).lastSeen = some 30) ∧
    ((⟨"A", "Alice", "a@x", "online", none⟩ : UserView).status = "online" ∧
     (⟨"A", "Alice", "a@x", "online", none⟩ : UserView).lastSeen = none) :=
  ⟨(users_list_status_online [⟨"A", 1, "Alice", "a@x", "away", 5⟩] 30 2).1,
   (users_list_status_online [⟨"A", 1, "Alice", "a@x", "away", 5⟩] 30 2).2.1,
   (users_list_status_online [⟨"A", 1, "Alice", "a@x", "away", 5⟩] 30 2).2.2.1
     ⟨"A", "Alice", "a@x", "online", some 30⟩ (by decide),
   (users_list_status_online [⟨"A", 1, "Alice", "a@x", "away", 5⟩] 30 2).2.2.2
     ⟨"A", "Alice", "a@x", "online", none⟩ (by decide)⟩

end ChatServer
